import Mathlib

/-!
Verification of the rusty_bucket transfer engine against its specification.

The Rust sources are shallowly embedded: pure functions (`compute_effective_bps`,
the rate-limiter arithmetic) become Lean functions; effectful functions
(`copy_file`, `copy_directory`, `move_file`, `move_directory`,
`execute_single_operation`, `verify_files_match`) become pure functions of the
operation plus an *environment* record that fixes the outcome of every external
call (path existence, I/O success, verification verdicts), and they additionally
return the ordered trace of mutating filesystem actions the code performs.
Machine integers (`u64`, `usize`) are modelled as `Nat`, with wrapping taken
explicitly modulo `2^64` at the one multiplication that can overflow.
`Instant`/`Duration` values in the throttle are modelled as rationals, with a
second as the unit.  Informational fields that no claim touches
(`details` log lines, `start_time`, `end_time`) are omitted from the embedded
`OperationResult`.
-/

namespace RustyBucket

/-- Paths are plain strings (Rust `PathBuf` rendered with `to_string_lossy`). -/
abbrev FsPath := String

/-- Join a directory path with a relative path, as `Path::join` does for the
relative paths produced by `strip_prefix` during a directory walk. -/
def joinPath (dir rel : FsPath) : FsPath := dir ++ "/" ++ rel

/-! ## Data model — src/config.rs -/

/-- `RateLimit` from src/config.rs. -/
structure RateLimit where
  enabled : Bool
  bytes_per_second : Option Nat
  megabytes_per_minute : Option Nat
deriving DecidableEq, Repr, Inhabited

/-- `OperationType` from src/config.rs. -/
inductive OperationType where
  | Copy
  | Move
deriving DecidableEq, Repr, Inhabited

/-- `FileOperation` from src/config.rs. -/
structure FileOperation where
  name : String
  origin : FsPath
  destination : FsPath
  operation_type : OperationType
  rate_limit : RateLimit
deriving DecidableEq, Repr, Inhabited

/-! ## Result model — src/file_ops.rs -/

/-- `FileEntry` from src/file_ops.rs. -/
structure FileEntry where
  source_path : FsPath
  destination_path : FsPath
  size : Nat
  hash_verified : Bool
  success : Bool
  error_message : Option String
deriving DecidableEq, Repr

/-- `OperationResult` from src/file_ops.rs.  The purely informational fields
`details`, `start_time` and `end_time` are omitted (no claim refers to them). -/
structure OperationResult where
  operation_name : String
  source : FsPath
  destination : FsPath
  success : Bool
  error_message : Option String
  hash_verified : Bool
  operation_type : OperationType
  files_processed : Nat
  total_size : Nat
  file_list : List FileEntry
deriving DecidableEq, Repr

/-- The trace of mutating filesystem calls a primitive performs, in program
order.  `digest` marks a content-hashing read (`calculate_sha256`); it is the
only non-mutating entry and is tracked because the spec promises moves never
hash. -/
inductive FsAction where
  | createDirAll (p : FsPath)
  | copyWrite (p : FsPath)
  | removeFile (p : FsPath)
  | removeDirAll (p : FsPath)
  | renameFs (src dst : FsPath)
  | digest (p : FsPath)
deriving DecidableEq, Repr

/-- `2^64`, the modulus of Rust `u64` arithmetic. -/
def u64size : Nat := 2 ^ 64

/-! ## Effective rate — src/file_ops.rs lines 188-215 -/

/-- The closure `to_bps` inside `compute_effective_bps` (src/file_ops.rs
lines 195-206): a disabled limit yields `none`; otherwise `bytes_per_second`
is preferred and `megabytes_per_minute` is normalized via
`mb * 1024 * 1024 / 60` in `u64` arithmetic. -/
def to_bps (rl : RateLimit) : Option Nat :=
  if !rl.enabled then
    none
  else
    match rl.bytes_per_second with
    | some bps => some bps
    | none =>
      match rl.megabytes_per_minute with
      | some mb_min => some (mb_min * 1024 * 1024 % u64size / 60)
      | none => none

/-- `FileManager::compute_effective_bps` (src/file_ops.rs lines 188-215). -/
def compute_effective_bps (op global : RateLimit) : Option Nat :=
  if !op.enabled && !global.enabled then
    none
  else
    match to_bps op, to_bps global with
    | some o, some g => some (min o g)
    | some o, none => some o
    | none, some g => some g
    | none, none => none

/-- Modelled from the spec: the resolution rule of spec.md §3 (EffectiveRate),
stated in the spec's own words — a disabled side is absent,
`bytes_per_second` takes precedence when present, and a megabytes/minute rate
is normalized to bytes/second via `mb * 1024 * 1024 / 60` (u64 arithmetic, as
the quoted code expression implies).  Used only to compare the code's
`compute_effective_bps` against the spec's rule. -/
def resolveSpec (rl : RateLimit) : Option Nat :=
  if rl.enabled then
    match rl.bytes_per_second with
    | some bps => some bps
    | none => rl.megabytes_per_minute.map (fun mb => mb * 1024 * 1024 % u64size / 60)
  else
    none

theorem to_bps_eq_resolveSpec (rl : RateLimit) : to_bps rl = resolveSpec rl := by
  rcases rl with ⟨e, bps, mb⟩
  cases e <;> cases bps <;> cases mb <;> rfl

/-- Combining rule applied to the two resolved sides, as described by the spec:
`min` when both are present, the present one when only one is, `none` when
neither is. -/
def combineMin : Option Nat → Option Nat → Option Nat
  | some o, some g => some (min o g)
  | some o, none => some o
  | none, some g => some g
  | none, none => none

theorem compute_effective_bps_eq_combine (op global : RateLimit) :
    compute_effective_bps op global = combineMin (to_bps op) (to_bps global) := by
  unfold compute_effective_bps combineMin
  by_cases h : op.enabled
  · simp [h]
  · by_cases h2 : global.enabled
    · simp [h, h2]
    · simp [h, h2, to_bps]

/-- Claim C1 (counterexample): the claim says `compute_effective_bps` is `None`
iff neither limit is enabled.  With the operation limit enabled but carrying no
numeric field and the global limit disabled, the result is `None` although one
side is enabled, so the "only if" direction fails. -/
theorem compute_effective_bps_none_iff_enabled_counterexample :
    compute_effective_bps ⟨true, none, none⟩ ⟨false, none, none⟩ = none ∧
    ¬((RateLimit.mk true none none).enabled = false ∧
      (RateLimit.mk false none none).enabled = false) := by
  exact ⟨rfl, by decide⟩

/-- Claim C1 (amended): the effective bytes-per-second rate is `None` iff
*neither side resolves to a rate* — a side fails to resolve when it is disabled
or when it is enabled with both numeric fields absent; otherwise it is the
minimum of the resolved rates with an unresolved side treated as absent, where
resolution takes `bytes_per_second` when present and otherwise normalizes
`megabytes_per_minute` to bytes/second as `mb * 1024 * 1024 / 60` in u64
arithmetic. -/
theorem compute_effective_bps_amended (op global : RateLimit) :
    (compute_effective_bps op global = none ↔
      resolveSpec op = none ∧ resolveSpec global = none) ∧
    compute_effective_bps op global = combineMin (resolveSpec op) (resolveSpec global) := by
  have h := compute_effective_bps_eq_combine op global
  rw [to_bps_eq_resolveSpec, to_bps_eq_resolveSpec] at h
  refine ⟨?_, h⟩
  rw [h]
  rcases h1 : resolveSpec op with _ | o <;> rcases h2 : resolveSpec global with _ | g <;>
    simp [combineMin]

/-! ## Integrity verifier — src/validation.rs -/

/-- The filesystem as seen by src/validation.rs: which paths exist, and what
streaming a path's bytes yields (`error` models a failure to open or a read
failure mid-stream).  Contents are abstract byte lists. -/
structure FsModel where
  pathExists : FsPath → Bool
  readFile : FsPath → Except String (List Nat)

/-- `calculate_sha256` (src/validation.rs lines 6-20): stream the whole file
and hash it.  The SHA-256 digest is abstracted as a parameter `hash` from
contents to hex strings; every property claimed of the verifier holds for an
arbitrary digest function. -/
def calculate_sha256 (fs : FsModel) (hash : List Nat → String) (p : FsPath) :
    Except String String :=
  (fs.readFile p).map hash

/-- `verify_files_match` (src/validation.rs lines 22-31), returning also the
list of paths whose digest was computed, in program order. -/
def verify_files_match (fs : FsModel) (hash : List Nat → String) (src dst : FsPath) :
    Except String Bool × List FsPath :=
  if !fs.pathExists src || !fs.pathExists dst then
    (.ok false, [])
  else
    match calculate_sha256 fs hash src with
    | .error e => (.error e, [src])
    | .ok src_hash =>
      match calculate_sha256 fs hash dst with
      | .error e => (.error e, [src, dst])
      | .ok dst_hash => (.ok (src_hash == dst_hash), [src, dst])

/-- Claim C7: `verify_files_match` returns `Ok false` with no digest computed
when either path does not exist; when both exist it returns the propagated
comparison `digest(a) == digest(b)`; its verdict is symmetric in the two
arguments (the `Ok` result is the same in both orders); and it is reflexive on
every existing readable file. -/
theorem verify_files_match_props :
    (∀ (fs : FsModel) (hash : List Nat → String) (a b : FsPath),
      fs.pathExists a = false ∨ fs.pathExists b = false →
      verify_files_match fs hash a b = (.ok false, [])) ∧
    (∀ (fs : FsModel) (hash : List Nat → String) (a b : FsPath),
      fs.pathExists a = true → fs.pathExists b = true →
      (verify_files_match fs hash a b).1 =
        (calculate_sha256 fs hash a).bind
          (fun ha => (calculate_sha256 fs hash b).map (fun hb => ha == hb))) ∧
    (∀ (fs : FsModel) (hash : List Nat → String) (a b : FsPath) (r : Bool),
      (verify_files_match fs hash a b).1 = .ok r ↔
      (verify_files_match fs hash b a).1 = .ok r) ∧
    (∀ (fs : FsModel) (hash : List Nat → String) (f : FsPath) (c : List Nat),
      fs.pathExists f = true → fs.readFile f = .ok c →
      (verify_files_match fs hash f f).1 = .ok true) := by
  refine ⟨?_, ?_, ?_, ?_⟩
  · intro fs hash a b h
    rcases h with h | h <;> simp [verify_files_match, h]
  · intro fs hash a b ha hb
    rcases hra : fs.readFile a with ea | ca <;> rcases hrb : fs.readFile b with eb | cb <;>
      simp [verify_files_match, calculate_sha256, ha, hb, hra, hrb, Except.map, Except.bind]
  · intro fs hash a b r
    have hsymm : ∀ x y : String, (x == y) = (y == x) := by
      intro x y
      rw [Bool.eq_iff_iff, beq_iff_eq, beq_iff_eq]
      exact eq_comm
    cases ha : fs.pathExists a with
    | false => simp [verify_files_match, ha]
    | true =>
      cases hb : fs.pathExists b with
      | false => simp [verify_files_match, ha, hb]
      | true =>
        rcases hra : fs.readFile a with ea | ca <;> rcases hrb : fs.readFile b with eb | cb <;>
          simp [verify_files_match, calculate_sha256, ha, hb, hra, hrb, Except.map, hsymm]
  · intro fs hash f c hf hr
    simp [verify_files_match, calculate_sha256, hf, hr, Except.map]

/-- Concrete single-file filesystem used only by the witness of C7. -/
def fsEx7 : FsModel :=
  ⟨fun p => p == "f", fun p => if p == "f" then .ok [7] else .error "io"⟩

/-- Digest stand-in used only by the witness of C7. -/
def hashEx7 : List Nat → String := fun c => if c == [7] then "aa" else "bb"

theorem verify_files_match_props_witness :
    (fsEx7.pathExists "g" = false ∨ fsEx7.pathExists "f" = false) ∧
    verify_files_match fsEx7 hashEx7 "g" "f" = (.ok false, []) ∧
    fsEx7.pathExists "f" = true ∧ fsEx7.readFile "f" = .ok [7] ∧
    (verify_files_match fsEx7 hashEx7 "f" "f").1 = .ok true := by
  have h1 : fsEx7.pathExists "g" = false := by decide
  have h2 : fsEx7.pathExists "f" = true := by decide
  have h3 : fsEx7.readFile "f" = .ok [7] := by
    show (if "f" == "f" then Except.ok [7] else Except.error "io") = Except.ok [7]
    simp
  exact ⟨Or.inl h1, verify_files_match_props.1 fsEx7 hashEx7 "g" "f" (Or.inl h1), h2, h3,
    verify_files_match_props.2.2.2 fsEx7 hashEx7 "f" [7] h2 h3⟩

/-! ## Throttle — src/rate_limiter.rs

`Instant` and `Duration` are modelled as rationals measured in seconds; the
real-valued `f64` divisions of the source are carried out exactly in `ℚ`.
Each operation takes the current time as an explicit argument.  An operation
that may sleep returns the slept duration alongside the new state. -/

/-- `RateLimiter` from src/rate_limiter.rs. -/
structure RateLimiter where
  enabled : Bool
  bytes_per_second : Nat
  window_start : ℚ
  bytes_transferred : Nat
  total_bytes_transferred : Nat
deriving DecidableEq, Repr

/-- `RateLimiter::new` (src/rate_limiter.rs lines 13-27). -/
def RateLimiter.new (now : ℚ) (bytes_per_second megabytes_per_minute : Option Nat) :
    RateLimiter :=
  match bytes_per_second, megabytes_per_minute with
  | some bps, _ => ⟨true, bps, now, 0, 0⟩
  | none, some mb_per_min => ⟨true, mb_per_min * 1024 * 1024 % u64size / 60, now, 0, 0⟩
  | none, none => ⟨false, 0, now, 0, 0⟩

/-- `RateLimiter::record_transfer` (src/rate_limiter.rs lines 54-63).  Adds the
bytes to the window counter and the lifetime total, then resets the window if
it has been open at least one second.  This operation never sleeps. -/
def RateLimiter.record_transfer (s : RateLimiter) (now : ℚ) (bytes : Nat) : RateLimiter :=
  let s1 : RateLimiter :=
    { s with
      bytes_transferred := s.bytes_transferred + bytes
      total_bytes_transferred := s.total_bytes_transferred + bytes }
  if now - s1.window_start ≥ 1 then
    { s1 with window_start := now, bytes_transferred := 0 }
  else
    s1

/-- `RateLimiter::throttle` (src/rate_limiter.rs lines 65-84).  Returns the new
state and the slept duration, `none` when the sleep branch is not reached.
After a sleep the clock has advanced by the slept duration, so the reset
`window_start` is `now` plus that duration. -/
def RateLimiter.throttle (s : RateLimiter) (now : ℚ) : RateLimiter × Option ℚ :=
  if !s.enabled || s.bytes_per_second == 0 then
    (s, none)
  else
    let target : ℚ := (s.bytes_transferred : ℚ) / (s.bytes_per_second : ℚ)
    let elapsed : ℚ := now - s.window_start
    if elapsed < target then
      ({ s with window_start := now + (target - elapsed), bytes_transferred := 0 },
       some (target - elapsed))
    else
      (s, none)

/-- `RateLimiter::throttle_chunk` (src/rate_limiter.rs lines 86-104).  `t1`,
`t2`, `t3` are the clock readings at the three successive calls inside the
body; `decile` is the value of the floating-point decile test
`progress % 0.1 < 0.01`, taken as a nondeterministic input (no claim proved
here depends on it).  Returns the new state and the list of sleeps performed. -/
def RateLimiter.throttle_chunk (s : RateLimiter) (t1 t2 t3 : ℚ) (decile : Bool)
    (chunk_size total_size : Nat) : RateLimiter × List ℚ :=
  if !s.enabled then
    (s, [])
  else
    let s1 := s.record_transfer t1 chunk_size
    let p2 := s1.throttle t2
    if total_size > p2.1.bytes_per_second * 10 && decile then
      let p3 := p2.1.throttle t3
      (p3.1, p2.2.toList ++ p3.2.toList)
    else
      (p2.1, p2.2.toList)

theorem record_transfer_preserves (s : RateLimiter) (now : ℚ) (bytes : Nat) :
    (s.record_transfer now bytes).enabled = s.enabled ∧
    (s.record_transfer now bytes).bytes_per_second = s.bytes_per_second := by
  unfold RateLimiter.record_transfer
  dsimp only
  split <;> exact ⟨rfl, rfl⟩

theorem throttle_preserves (s : RateLimiter) (now : ℚ) :
    (s.throttle now).1.enabled = s.enabled ∧
    (s.throttle now).1.bytes_per_second = s.bytes_per_second := by
  unfold RateLimiter.throttle
  split
  · exact ⟨rfl, rfl⟩
  · dsimp only
    split <;> exact ⟨rfl, rfl⟩

theorem throttle_disabled (s : RateLimiter)
    (h : s.enabled = false ∨ s.bytes_per_second = 0) (now : ℚ) :
    s.throttle now = (s, none) := by
  unfold RateLimiter.throttle
  rcases h with h | h <;> simp [h]

/-- Claim C8: when the limiter is disabled or its target rate is zero, no
throttle operation ever sleeps — `record_transfer` cannot sleep at all,
`throttle` and `throttle_chunk` never reach the sleep branch — and since every
operation preserves the `enabled` flag and the target rate, no sequence of
calls starting from such a state can ever cause a sleep. -/
theorem rate_limiter_disabled_never_sleeps :
    (∀ s : RateLimiter, s.enabled = false ∨ s.bytes_per_second = 0 →
      ∀ now : ℚ, s.throttle now = (s, none)) ∧
    (∀ s : RateLimiter, s.enabled = false ∨ s.bytes_per_second = 0 →
      ∀ (t1 t2 t3 : ℚ) (decile : Bool) (chunk_size total_size : Nat),
        (s.throttle_chunk t1 t2 t3 decile chunk_size total_size).2 = []) ∧
    (∀ (s : RateLimiter) (now : ℚ) (bytes : Nat),
      (s.record_transfer now bytes).enabled = s.enabled ∧
      (s.record_transfer now bytes).bytes_per_second = s.bytes_per_second) ∧
    (∀ (s : RateLimiter) (now : ℚ),
      (s.throttle now).1.enabled = s.enabled ∧
      (s.throttle now).1.bytes_per_second = s.bytes_per_second) ∧
    (∀ (s : RateLimiter) (t1 t2 t3 : ℚ) (decile : Bool) (chunk_size total_size : Nat),
      (s.throttle_chunk t1 t2 t3 decile chunk_size total_size).1.enabled = s.enabled ∧
      (s.throttle_chunk t1 t2 t3 decile chunk_size total_size).1.bytes_per_second =
        s.bytes_per_second) := by
  have hchunk : ∀ (s : RateLimiter), s.enabled = false ∨ s.bytes_per_second = 0 →
      ∀ (t1 t2 t3 : ℚ) (decile : Bool) (chunk_size total_size : Nat),
        (s.throttle_chunk t1 t2 t3 decile chunk_size total_size).2 = [] := by
    intro s h t1 t2 t3 decile chunk_size total_size
    rcases h with h | h
    · simp [RateLimiter.throttle_chunk, h]
    · unfold RateLimiter.throttle_chunk
      rcases he : s.enabled with _ | _
      · simp
      · have hp1 := record_transfer_preserves s t1 chunk_size
        have hb1 : (s.record_transfer t1 chunk_size).bytes_per_second = 0 := by
          rw [hp1.2, h]
        have ht2 := throttle_disabled (s.record_transfer t1 chunk_size) (Or.inr hb1) t2
        have ht3 := throttle_disabled (s.record_transfer t1 chunk_size) (Or.inr hb1) t3
        simp [ht2, ht3]
  refine ⟨fun s h now => throttle_disabled s h now, hchunk,
    record_transfer_preserves, throttle_preserves, ?_⟩
  intro s t1 t2 t3 decile chunk_size total_size
  rcases he : s.enabled with _ | _
  · simp [RateLimiter.throttle_chunk, he]
  · have hp1 := record_transfer_preserves s t1 chunk_size
    have hp2 := throttle_preserves (s.record_transfer t1 chunk_size) t2
    have hp3 := throttle_preserves ((s.record_transfer t1 chunk_size).throttle t2).1 t3
    unfold RateLimiter.throttle_chunk
    rw [he]
    simp only [Bool.not_true, Bool.false_eq_true, if_false]
    split
    · exact ⟨by rw [hp3.1, hp2.1, hp1.1, he], by rw [hp3.2, hp2.2, hp1.2]⟩
    · exact ⟨by rw [hp2.1, hp1.1, he], by rw [hp2.2, hp1.2]⟩

theorem rate_limiter_disabled_never_sleeps_witness :
    ((RateLimiter.mk false 5 0 0 0).enabled = false ∨
      (RateLimiter.mk false 5 0 0 0).bytes_per_second = 0) ∧
    RateLimiter.throttle ⟨false, 5, 0, 0, 0⟩ 3 = (⟨false, 5, 0, 0, 0⟩, none) ∧
    ((RateLimiter.mk true 0 0 0 0).enabled = false ∨
      (RateLimiter.mk true 0 0 0 0).bytes_per_second = 0) ∧
    (RateLimiter.throttle_chunk ⟨true, 0, 0, 0, 0⟩ 1 2 3 true 7 100).2 = [] :=
  ⟨Or.inl rfl,
   rate_limiter_disabled_never_sleeps.1 ⟨false, 5, 0, 0, 0⟩ (Or.inl rfl) 3,
   Or.inr rfl,
   rate_limiter_disabled_never_sleeps.2.1 ⟨true, 0, 0, 0, 0⟩ (Or.inr rfl) 1 2 3 true 7 100⟩

/-! ## Transfer primitives — src/file_ops.rs

Each primitive becomes a pure function of the `FileOperation` plus an
environment record fixing the outcome of every external call it makes, and it
returns the `OperationResult` together with the trace of mutating filesystem
actions in program order.  Rate limiting only selects which copy routine runs
(`copy_file_with_rate_limit` versus `fs::copy`); either way the observable
outcome of the copy call is the environment's `copyResult`, so the limiter does
not appear in these embeddings (it is verified separately above).  Punctuation
quoting inside the source's message strings is elided. -/

/-- Environment of one `copy_file` call (src/file_ops.rs lines 217-356):
the source metadata size (0 when metadata fails), the outcome of the copy
call, and the verdict of `verify_files_match`. -/
structure CopyFileEnv where
  fileSize : Nat
  copyResult : Except String Nat
  verify : Except String Bool
deriving Repr

/-- `FileManager::copy_file` (src/file_ops.rs lines 217-356). -/
def copy_file (operation : FileOperation) (env : CopyFileEnv) :
    OperationResult × List FsAction :=
  let result : OperationResult :=
    { operation_name := operation.name
      source := operation.origin
      destination := operation.destination
      success := false
      error_message := none
      hash_verified := false
      operation_type := .Copy
      files_processed := 1
      total_size := env.fileSize
      file_list := [] }
  match env.copyResult with
  | .ok bytes_copied =>
    let result := { result with total_size := bytes_copied }
    match env.verify with
    | .ok true =>
      ({ result with
          success := true
          hash_verified := true
          file_list :=
            [⟨operation.origin, operation.destination, bytes_copied, true, true, none⟩] },
       [.copyWrite operation.destination])
    | .ok false =>
      let error_msg := "Hash verification failed - files are different"
      ({ result with
          error_message := some error_msg
          file_list :=
            [⟨operation.origin, operation.destination, bytes_copied, false, false,
              some error_msg⟩] },
       [.copyWrite operation.destination, .removeFile operation.destination])
    | .error e =>
      let error_msg := "Verification error: " ++ e
      ({ result with
          error_message := some error_msg
          file_list :=
            [⟨operation.origin, operation.destination, bytes_copied, false, false,
              some error_msg⟩] },
       [.copyWrite operation.destination, .removeFile operation.destination])
  | .error e =>
    let error_msg := "Copy failed: " ++ e
    ({ result with
        error_message := some error_msg
        file_list :=
          [⟨operation.origin, operation.destination, env.fileSize, false, false,
            some error_msg⟩] },
     [.copyWrite operation.destination])

/-- One entry of the `WalkDir` traversal inside `copy_directory`
(src/file_ops.rs lines 459-600), together with the outcomes of the external
calls made for it.  The root entry, which the loop skips, is not listed;
`relErr` is a `strip_prefix` failure. -/
inductive WalkEvent where
  | readErr (msg : String)
  | relErr (p : FsPath)
  | dirEntry (rel : FsPath) (create : Except String Unit)
  | fileEvt (rel : FsPath) (size : Nat) (copyResult : Except String Nat)
      (verify : Except String Bool)
deriving Repr

/-- Environment of one `copy_directory` call: the outcome of creating the
destination root and the traversal of the source tree. -/
structure CopyDirEnv where
  createDest : Except String Unit
  walk : List WalkEvent
deriving Repr

/-- The loop state of `copy_directory`: the mutable locals `all_successful`
and `error_messages`, the accumulating fields of `result`, and the action
trace. -/
structure DirState where
  all_successful : Bool
  hash_verified : Bool
  error_messages : List String
  files_processed : Nat
  total_size : Nat
  file_list : List FileEntry
  actions : List FsAction
deriving Repr

/-- One iteration of the `copy_directory` walk loop (src/file_ops.rs
lines 459-600). -/
def stepWalk (origin destination : FsPath) (s : DirState) : WalkEvent → DirState
  | .readErr msg =>
    { s with
      error_messages := s.error_messages ++ ["Error reading directory entry: " ++ msg]
      all_successful := false }
  | .relErr p =>
    -- the source records the message but does not clear `all_successful` here
    { s with
      error_messages := s.error_messages ++ ["Failed to get relative path for: " ++ p] }
  | .dirEntry rel create =>
    let dest_path := joinPath destination rel
    match create with
    | .error e =>
      { s with
        error_messages :=
          s.error_messages ++ ["Failed to create directory " ++ dest_path ++ ": " ++ e]
        all_successful := false }
    | .ok _ => { s with actions := s.actions ++ [.createDirAll dest_path] }
  | .fileEvt rel size copyResult verify =>
    let source_path := joinPath origin rel
    let dest_path := joinPath destination rel
    let s : DirState :=
      { s with
        files_processed := s.files_processed + 1
        total_size := s.total_size + size }
    match copyResult with
    | .ok bytes_copied =>
      let s : DirState := { s with actions := s.actions ++ [FsAction.copyWrite dest_path] }
      match verify with
      | .ok true =>
        { s with
          file_list := s.file_list ++ [⟨source_path, dest_path, bytes_copied, true, true, none⟩] }
      | .ok false =>
        { s with
          error_messages :=
            s.error_messages ++ ["Hash verification failed for: " ++ source_path]
          all_successful := false
          hash_verified := false
          actions := s.actions ++ [.removeFile dest_path]
          file_list :=
            s.file_list ++ [⟨source_path, dest_path, bytes_copied, false, false,
              some "Hash verification failed"⟩] }
      | .error e =>
        { s with
          error_messages :=
            s.error_messages ++ ["Verification error for " ++ source_path ++ ": " ++ e]
          all_successful := false
          hash_verified := false
          actions := s.actions ++ [.removeFile dest_path]
          file_list :=
            s.file_list ++ [⟨source_path, dest_path, bytes_copied, false, false,
              some ("Verification error: " ++ e)⟩] }
    | .error e =>
      let msg := "Failed to copy " ++ source_path ++ " to " ++ dest_path ++ ": " ++ e
      { s with
        error_messages := s.error_messages ++ [msg]
        all_successful := false
        file_list := s.file_list ++ [⟨source_path, dest_path, size, false, false, some msg⟩] }

/-- `FileManager::copy_directory` (src/file_ops.rs lines 415-615). -/
def copy_directory (operation : FileOperation) (env : CopyDirEnv) :
    OperationResult × List FsAction :=
  let result : OperationResult :=
    { operation_name := operation.name
      source := operation.origin
      destination := operation.destination
      success := false
      error_message := none
      hash_verified := true
      operation_type := .Copy
      files_processed := 0
      total_size := 0
      file_list := [] }
  match env.createDest with
  | .error e =>
    ({ result with error_message := some ("Failed to create destination directory: " ++ e) },
     [])
  | .ok _ =>
    let init : DirState := ⟨true, true, [], 0, 0, [], [.createDirAll operation.destination]⟩
    let st := env.walk.foldl (stepWalk operation.origin operation.destination) init
    ({ result with
        success := st.all_successful
        hash_verified := st.hash_verified
        error_message :=
          if st.error_messages.isEmpty then none
          else some (String.intercalate "; " st.error_messages)
        files_processed := st.files_processed
        total_size := st.total_size
        file_list := st.file_list },
     st.actions)

/-- Environment of one `move_file` call (src/file_ops.rs lines 617-716):
source metadata size, whether the destination already exists, the outcome of
removing it, the outcome of `fs::rename`, and whether the destination exists
after the rename. -/
structure MoveFileEnv where
  fileSize : Nat
  destExists : Bool
  removeDest : Except String Unit
  renameRes : Except String Unit
  destExistsAfter : Bool
deriving Repr

/-- The `fs::rename` match of `move_file` (src/file_ops.rs lines 664-712),
shared by the destination-existed and destination-absent paths.  `acts` is the
trace accumulated so far.  A failed rename mutates nothing, so it adds no
action. -/
def move_file_rename (operation : FileOperation) (env : MoveFileEnv)
    (result : OperationResult) (acts : List FsAction) : OperationResult × List FsAction :=
  match env.renameRes with
  | .ok _ =>
    let acts := acts ++ [FsAction.renameFs operation.origin operation.destination]
    if env.destExistsAfter then
      ({ result with
          success := true
          file_list :=
            [⟨operation.origin, operation.destination, env.fileSize, true, true, none⟩] },
       acts)
    else
      ({ result with
          success := false
          error_message := some "Destination file does not exist after move" },
       acts)
  | .error e =>
    let error_msg := "Move failed: " ++ e
    ({ result with
        error_message := some error_msg
        file_list :=
          [⟨operation.origin, operation.destination, env.fileSize, false, false,
            some error_msg⟩] },
     acts)

/-- `FileManager::move_file` (src/file_ops.rs lines 617-716). -/
def move_file (operation : FileOperation) (env : MoveFileEnv) :
    OperationResult × List FsAction :=
  let result : OperationResult :=
    { operation_name := operation.name
      source := operation.origin
      destination := operation.destination
      success := false
      error_message := none
      hash_verified := true
      operation_type := .Move
      files_processed := 1
      total_size := env.fileSize
      file_list := [] }
  if env.destExists then
    match env.removeDest with
    | .error e =>
      ({ result with
          error_message := some ("Cannot move: destination exists and cannot be removed: " ++ e) },
       [])
    | .ok _ =>
      move_file_rename operation env result [FsAction.removeFile operation.destination]
  else
    move_file_rename operation env result []

/-- Environment of one `move_directory` call (src/file_ops.rs lines 718-836).
`canonOrigin`/`canonDest` are the `canonicalize().ok()` results; `afterWalk`
lists, for each file found when re-walking the moved tree, its full entry path,
the relative string the code computes from `strip_prefix(...).unwrap_or(full)`,
and its size (entries whose walk or metadata read fails contribute nothing and
are not listed). -/
structure MoveDirEnv where
  destExists : Bool
  canonOrigin : Option FsPath
  canonDest : Option FsPath
  removeDest : Except String Unit
  renameRes : Except String Unit
  destExistsAfter : Bool
  afterWalk : List (FsPath × FsPath × Nat)
deriving Repr

/-- The `fs::rename` match of `move_directory` (src/file_ops.rs lines 765-832),
including the post-rename re-walk that populates `file_list`. -/
def move_directory_rename (operation : FileOperation) (env : MoveDirEnv)
    (result : OperationResult) (acts : List FsAction) : OperationResult × List FsAction :=
  match env.renameRes with
  | .ok _ =>
    let acts := acts ++ [FsAction.renameFs operation.origin operation.destination]
    if env.destExistsAfter then
      ({ result with
          success := true
          files_processed := env.afterWalk.length
          total_size := (env.afterWalk.map (fun f => f.2.2)).sum
          file_list := env.afterWalk.map (fun f =>
            ⟨joinPath operation.origin f.2.1, f.1, f.2.2, true, true, none⟩) },
       acts)
    else
      ({ result with
          success := false
          error_message := some "Destination directory does not exist after move" },
       acts)
  | .error e =>
    ({ result with error_message := some ("Move failed: " ++ e) }, acts)

/-- `FileManager::move_directory` (src/file_ops.rs lines 718-836). -/
def move_directory (operation : FileOperation) (env : MoveDirEnv) :
    OperationResult × List FsAction :=
  let result : OperationResult :=
    { operation_name := operation.name
      source := operation.origin
      destination := operation.destination
      success := false
      error_message := none
      hash_verified := true
      operation_type := .Move
      files_processed := 0
      total_size := 0
      file_list := [] }
  if env.destExists then
    if env.canonOrigin == env.canonDest then
      ({ result with error_message := some "Source and destination are the same directory" },
       [])
    else
      match env.removeDest with
      | .error e =>
        ({ result with
            error_message :=
              some ("Cannot move: destination exists and cannot be removed: " ++ e) },
         [])
      | .ok _ =>
        move_directory_rename operation env result [FsAction.removeDirAll operation.destination]
  else
    move_directory_rename operation env result []

/-! ## Operation orchestrator — src/file_ops.rs lines 43-186 -/

/-- Environment of one `execute_single_operation` call (src/file_ops.rs
lines 89-186): the origin checks, the destination-parent preparation, and the
environment of whichever primitive is dispatched. -/
structure SingleOpEnv where
  originExists : Bool
  originIsDir : Bool
  originIsFile : Bool
  destParent : Option FsPath
  parentExists : Bool
  createParent : Except String Unit
  copyFileEnv : CopyFileEnv
  copyDirEnv : CopyDirEnv
  moveFileEnv : MoveFileEnv
  moveDirEnv : MoveDirEnv

/-- `FileManager::execute_single_operation` (src/file_ops.rs lines 89-186).
The `global_rate_limit` argument only feeds `compute_effective_bps`, whose
output selects the copy routine; the observable copy outcome is fixed by the
environment, so the parameter is threaded for shape only. -/
def execute_single_operation (operation : FileOperation) (global_rate_limit : RateLimit)
    (env : SingleOpEnv) : OperationResult × List FsAction :=
  let result : OperationResult :=
    { operation_name := operation.name
      source := operation.origin
      destination := operation.destination
      success := false
      error_message := none
      hash_verified := false
      operation_type := operation.operation_type
      files_processed := 0
      total_size := 0
      file_list := [] }
  if !env.originExists then
    ({ result with error_message := some ("Source " ++ operation.origin ++ " does not exist") },
     [])
  else if !env.originIsDir && !env.originIsFile then
    ({ result with
        error_message :=
          some ("Source " ++ operation.origin ++ " is not a valid file or directory") },
     [])
  else
    let parentStep : Except String (List FsAction) :=
      match env.destParent with
      | some parent =>
        if !env.parentExists then
          match env.createParent with
          | .ok _ => .ok [FsAction.createDirAll parent]
          | .error e =>
            .error ("Failed to create destination directory " ++ parent ++ ": " ++ e)
        else
          .ok []
      | none => .ok []
    match parentStep with
    | .error error_msg =>
      ({ result with error_message := some error_msg }, [])
    | .ok parentActs =>
      let dispatched : OperationResult × List FsAction :=
        match operation.operation_type with
        | .Copy =>
          if env.originIsDir then copy_directory operation env.copyDirEnv
          else copy_file operation env.copyFileEnv
        | .Move =>
          if env.originIsDir then move_directory operation env.moveDirEnv
          else move_file operation env.moveFileEnv
      (dispatched.1, parentActs ++ dispatched.2)

/-- `FileManager::execute_operations` (src/file_ops.rs lines 43-87).  The
rayon `par_iter().for_each` pushes each operation's result into one
mutex-guarded vector; the embedding takes the completion order as an explicit
list of indices into the operation list, so the final collection is the
results mapped over that order.  `envs` fixes each operation's environment. -/
def execute_operations (operations : List FileOperation) (global_rate_limit : RateLimit)
    (envs : Nat → SingleOpEnv) (order : List Nat) : List OperationResult :=
  order.map (fun i =>
    (execute_single_operation (operations.getD i default) global_rate_limit (envs i)).1)

/-! ## Walk-loop analysis for `copy_directory` -/

/-- Decidable success check on `Except`. -/
def exceptOk {α : Type} : Except String α → Bool
  | .ok _ => true
  | .error _ => false

/-- A walk entry that contributes no failure to `all_successful`. -/
def eventOk : WalkEvent → Bool
  | .readErr _ => false
  | .relErr _ => true
  | .dirEntry _ (.ok _) => true
  | .dirEntry _ (.error _) => false
  | .fileEvt _ _ (.ok _) (.ok true) => true
  | .fileEvt _ _ _ _ => false

/-- The per-file component of `eventOk`: non-file entries count as ok. -/
def fileOk : WalkEvent → Bool
  | .fileEvt _ _ (.ok _) (.ok true) => true
  | .fileEvt _ _ _ _ => false
  | _ => true

/-- The non-file component of `eventOk`: file entries count as ok. -/
def entryOk : WalkEvent → Bool
  | .readErr _ => false
  | .dirEntry _ (.error _) => false
  | _ => true

/-- A file entry whose copy succeeded but whose verification reported a
mismatch or an error — exactly the events that flip `hash_verified`. -/
def verFail : WalkEvent → Bool
  | .fileEvt _ _ (.ok _) (.ok false) => true
  | .fileEvt _ _ (.ok _) (.error _) => true
  | _ => false

/-- Actions contributed by one walk entry. -/
def evActions (d : FsPath) : WalkEvent → List FsAction
  | .readErr _ => []
  | .relErr _ => []
  | .dirEntry rel (.ok _) => [.createDirAll (joinPath d rel)]
  | .dirEntry _ (.error _) => []
  | .fileEvt rel _ (.ok _) (.ok true) => [.copyWrite (joinPath d rel)]
  | .fileEvt rel _ (.ok _) (.ok false) =>
    [.copyWrite (joinPath d rel), .removeFile (joinPath d rel)]
  | .fileEvt rel _ (.ok _) (.error _) =>
    [.copyWrite (joinPath d rel), .removeFile (joinPath d rel)]
  | .fileEvt _ _ (.error _) _ => []

/-- `FileEntry` records contributed by one walk entry. -/
def evEntries (o d : FsPath) : WalkEvent → List FileEntry
  | .fileEvt rel _ (.ok b) (.ok true) =>
    [⟨joinPath o rel, joinPath d rel, b, true, true, none⟩]
  | .fileEvt rel _ (.ok b) (.ok false) =>
    [⟨joinPath o rel, joinPath d rel, b, false, false, some "Hash verification failed"⟩]
  | .fileEvt rel _ (.ok b) (.error e) =>
    [⟨joinPath o rel, joinPath d rel, b, false, false, some ("Verification error: " ++ e)⟩]
  | .fileEvt rel size (.error e) _ =>
    [⟨joinPath o rel, joinPath d rel, size, false, false,
      some ("Failed to copy " ++ joinPath o rel ++ " to " ++ joinPath d rel ++ ": " ++ e)⟩]
  | _ => []

/-- Error messages contributed by one walk entry. -/
def evMsgs (o d : FsPath) : WalkEvent → List String
  | .readErr msg => ["Error reading directory entry: " ++ msg]
  | .relErr p => ["Failed to get relative path for: " ++ p]
  | .dirEntry rel (.error e) => ["Failed to create directory " ++ joinPath d rel ++ ": " ++ e]
  | .dirEntry _ (.ok _) => []
  | .fileEvt rel _ (.ok _) (.ok true) => []
  | .fileEvt rel _ (.ok _) (.ok false) => ["Hash verification failed for: " ++ joinPath o rel]
  | .fileEvt rel _ (.ok _) (.error e) =>
    ["Verification error for " ++ joinPath o rel ++ ": " ++ e]
  | .fileEvt rel size (.error e) _ =>
    ["Failed to copy " ++ joinPath o rel ++ " to " ++ joinPath d rel ++ ": " ++ e]

theorem eventOk_eq_and (ev : WalkEvent) : eventOk ev = (fileOk ev && entryOk ev) := by
  rcases ev with msg | p | ⟨rel, create⟩ | ⟨rel, size, cr, vf⟩
  · rfl
  · rfl
  · rcases create with e | u <;> rfl
  · rcases cr with e | b <;> rcases vf with e2 | bv <;> first | rfl | (cases bv <;> rfl)

theorem stepWalk_all (o d : FsPath) (s : DirState) (ev : WalkEvent) :
    (stepWalk o d s ev).all_successful = (s.all_successful && eventOk ev) := by
  rcases ev with msg | p | ⟨rel, create⟩ | ⟨rel, size, cr, vf⟩
  · simp [stepWalk, eventOk]
  · simp [stepWalk, eventOk]
  · rcases create with e | u <;> simp [stepWalk, eventOk]
  · rcases cr with e | b <;> rcases vf with e2 | bv <;>
      first
        | (cases bv <;> simp [stepWalk, eventOk])
        | simp [stepWalk, eventOk]

theorem stepWalk_hv (o d : FsPath) (s : DirState) (ev : WalkEvent) :
    (stepWalk o d s ev).hash_verified = (s.hash_verified && !verFail ev) := by
  rcases ev with msg | p | ⟨rel, create⟩ | ⟨rel, size, cr, vf⟩
  · simp [stepWalk, verFail]
  · simp [stepWalk, verFail]
  · rcases create with e | u <;> simp [stepWalk, verFail]
  · rcases cr with e | b <;> rcases vf with e2 | bv <;>
      first
        | (cases bv <;> simp [stepWalk, verFail])
        | simp [stepWalk, verFail]

theorem stepWalk_actions (o d : FsPath) (s : DirState) (ev : WalkEvent) :
    (stepWalk o d s ev).actions = s.actions ++ evActions d ev := by
  rcases ev with msg | p | ⟨rel, create⟩ | ⟨rel, size, cr, vf⟩
  · simp [stepWalk, evActions]
  · simp [stepWalk, evActions]
  · rcases create with e | u <;> simp [stepWalk, evActions]
  · rcases cr with e | b <;> rcases vf with e2 | bv <;>
      first
        | (cases bv <;> simp [stepWalk, evActions])
        | simp [stepWalk, evActions]

theorem stepWalk_file_list (o d : FsPath) (s : DirState) (ev : WalkEvent) :
    (stepWalk o d s ev).file_list = s.file_list ++ evEntries o d ev := by
  rcases ev with msg | p | ⟨rel, create⟩ | ⟨rel, size, cr, vf⟩
  · simp [stepWalk, evEntries]
  · simp [stepWalk, evEntries]
  · rcases create with e | u <;> simp [stepWalk, evEntries]
  · rcases cr with e | b <;> rcases vf with e2 | bv <;>
      first
        | (cases bv <;> simp [stepWalk, evEntries])
        | simp [stepWalk, evEntries]

theorem stepWalk_msgs (o d : FsPath) (s : DirState) (ev : WalkEvent) :
    (stepWalk o d s ev).error_messages = s.error_messages ++ evMsgs o d ev := by
  rcases ev with msg | p | ⟨rel, create⟩ | ⟨rel, size, cr, vf⟩
  · simp [stepWalk, evMsgs]
  · simp [stepWalk, evMsgs]
  · rcases create with e | u <;> simp [stepWalk, evMsgs]
  · rcases cr with e | b <;> rcases vf with e2 | bv <;>
      first
        | (cases bv <;> simp [stepWalk, evMsgs])
        | simp [stepWalk, evMsgs]

theorem foldl_all (o d : FsPath) (walk : List WalkEvent) :
    ∀ init : DirState,
      (walk.foldl (stepWalk o d) init).all_successful
        = (init.all_successful && walk.all eventOk) := by
  induction walk with
  | nil => intro init; simp
  | cons ev rest ih =>
    intro init
    simp [List.foldl_cons, List.all_cons, ih, stepWalk_all, Bool.and_assoc]

theorem foldl_hv (o d : FsPath) (walk : List WalkEvent) :
    ∀ init : DirState,
      (walk.foldl (stepWalk o d) init).hash_verified
        = (init.hash_verified && walk.all (fun ev => !verFail ev)) := by
  induction walk with
  | nil => intro init; simp
  | cons ev rest ih =>
    intro init
    simp [List.foldl_cons, List.all_cons, ih, stepWalk_hv, Bool.and_assoc]

theorem foldl_actions (o d : FsPath) (walk : List WalkEvent) :
    ∀ init : DirState,
      (walk.foldl (stepWalk o d) init).actions
        = init.actions ++ (walk.map (evActions d)).join := by
  induction walk with
  | nil => intro init; simp
  | cons ev rest ih =>
    intro init
    simp [List.foldl_cons, ih, stepWalk_actions]

theorem foldl_file_list (o d : FsPath) (walk : List WalkEvent) :
    ∀ init : DirState,
      (walk.foldl (stepWalk o d) init).file_list
        = init.file_list ++ (walk.map (evEntries o d)).join := by
  induction walk with
  | nil => intro init; simp
  | cons ev rest ih =>
    intro init
    simp [List.foldl_cons, ih, stepWalk_file_list]

theorem foldl_msgs (o d : FsPath) (walk : List WalkEvent) :
    ∀ init : DirState,
      (walk.foldl (stepWalk o d) init).error_messages
        = init.error_messages ++ (walk.map (evMsgs o d)).join := by
  induction walk with
  | nil => intro init; simp
  | cons ev rest ih =>
    intro init
    simp [List.foldl_cons, ih, stepWalk_msgs]

theorem list_all_and {α : Type} (l : List α) (f g : α → Bool) :
    l.all (fun x => f x && g x) = (l.all f && l.all g) := by
  induction l with
  | nil => rfl
  | cons x xs ih =>
    simp only [List.all_cons, ih]
    rw [Bool.and_assoc, Bool.and_assoc]
    rw [← Bool.and_assoc (g x), Bool.and_comm (g x), Bool.and_assoc]

theorem evEntries_all_success (o d : FsPath) (ev : WalkEvent) :
    (evEntries o d ev).all (fun fe => fe.success) = fileOk ev := by
  rcases ev with msg | p | ⟨rel, create⟩ | ⟨rel, size, cr, vf⟩
  · rfl
  · rfl
  · rcases create with e | u <;> rfl
  · rcases cr with e | b <;> rcases vf with e2 | bv <;> first | (cases bv <;> rfl) | rfl

theorem entries_all_success (o d : FsPath) (walk : List WalkEvent) :
    ((walk.map (evEntries o d)).join.all (fun fe => fe.success)) = walk.all fileOk := by
  induction walk with
  | nil => rfl
  | cons ev rest ih =>
    simp [List.all_append, ih, evEntries_all_success]

theorem all_eventOk_split (walk : List WalkEvent) :
    walk.all eventOk = (walk.all fileOk && walk.all entryOk) := by
  rw [← list_all_and]
  induction walk with
  | nil => rfl
  | cons ev rest ih => simp [List.all_cons, ih, eventOk_eq_and]

/-- The initial loop state of `copy_directory` after the destination root has
been created. -/
def dirInit (destination : FsPath) : DirState :=
  ⟨true, true, [], 0, 0, [], [.createDirAll destination]⟩

theorem copy_directory_ok_fields (operation : FileOperation) (u : Unit)
    (walk : List WalkEvent) :
    (copy_directory operation ⟨.ok u, walk⟩).1.success = walk.all eventOk ∧
    (copy_directory operation ⟨.ok u, walk⟩).1.hash_verified
      = walk.all (fun ev => !verFail ev) ∧
    (copy_directory operation ⟨.ok u, walk⟩).1.file_list
      = (walk.map (evEntries operation.origin operation.destination)).join ∧
    (copy_directory operation ⟨.ok u, walk⟩).2
      = FsAction.createDirAll operation.destination ::
          (walk.map (evActions operation.destination)).join ∧
    (copy_directory operation ⟨.ok u, walk⟩).1.error_message
      = (if ((walk.map (evMsgs operation.origin operation.destination)).join).isEmpty
          then none
          else some (String.intercalate "; "
            (walk.map (evMsgs operation.origin operation.destination)).join)) := by
  have h1 := foldl_all operation.origin operation.destination walk
    (dirInit operation.destination)
  have h2 := foldl_hv operation.origin operation.destination walk
    (dirInit operation.destination)
  have h3 := foldl_file_list operation.origin operation.destination walk
    (dirInit operation.destination)
  have h4 := foldl_actions operation.origin operation.destination walk
    (dirInit operation.destination)
  have h5 := foldl_msgs operation.origin operation.destination walk
    (dirInit operation.destination)
  simp only [dirInit] at h1 h2 h3 h4 h5
  simp [copy_directory, dirInit, h1, h2, h3, h4, h5]

/-- Claim C2 (counterexample): the claim makes the operation-level `success` of
a directory copy the conjunction of the per-file outcomes in `file_list`.  A
walk consisting of one unreadable directory entry produces an empty
`file_list` — a vacuously true conjunction — yet `success` is false. -/
theorem copy_directory_success_conj_counterexample :
    (copy_directory ⟨"op", "src", "dst", .Copy, ⟨false, none, none⟩⟩
      ⟨.ok (), [WalkEvent.readErr "boom"]⟩).1.success = false ∧
    (copy_directory ⟨"op", "src", "dst", .Copy, ⟨false, none, none⟩⟩
      ⟨.ok (), [WalkEvent.readErr "boom"]⟩).1.file_list = [] :=
  ⟨rfl, rfl⟩

/-- Claim C2 (amended): for a directory copy, `success` is the conjunction of
the per-file outcomes in `file_list` *and* of the per-entry bookkeeping
outcomes — creation of the destination root, readability of every walk entry,
and creation of every mirrored subdirectory; `hash_verified` starts true and
becomes false exactly when the destination root was created and some copied
file's verification fails (mismatch or verification error). -/
theorem copy_directory_success_and_hash (operation : FileOperation) (env : CopyDirEnv) :
    ((copy_directory operation env).1.success =
      ((copy_directory operation env).1.file_list.all (fun fe => fe.success) &&
        exceptOk env.createDest && env.walk.all entryOk)) ∧
    ((copy_directory operation env).1.hash_verified = false ↔
      exceptOk env.createDest = true ∧ ∃ ev ∈ env.walk, verFail ev = true) := by
  obtain ⟨cd, walk⟩ := env
  rcases cd with e | u
  · exact ⟨by simp [copy_directory, exceptOk], by simp [copy_directory, exceptOk]⟩
  · obtain ⟨h1, h2, h3, _, _⟩ := copy_directory_ok_fields operation u walk
    constructor
    · rw [h1, h3, entries_all_success, all_eventOk_split]
      simp [exceptOk, Bool.and_assoc]
    · rw [h2]
      simp only [exceptOk, true_and]
      cases hall : walk.all (fun ev => !verFail ev) with
      | true =>
        simp only [Bool.true_eq_false, false_iff]
        rintro ⟨ev, hev, hvf⟩
        have := List.all_eq_true.1 hall ev hev
        rw [hvf] at this
        exact Bool.false_ne_true this
      | false =>
        simp only [true_iff]
        have : ¬ ∀ ev ∈ walk, (!verFail ev) = true := by
          intro hforall
          rw [List.all_eq_true.2 hforall] at hall
          exact Bool.true_eq_false ▸ hall
        push_neg at this
        obtain ⟨ev, hev, hvf⟩ := this
        exact ⟨ev, hev, by
          cases hv : verFail ev
          · rw [hv] at hvf; exact absurd rfl hvf
          · rfl⟩

theorem mem_join_map {α β : Type} (f : α → List β) (l : List α) (x : α) (hx : x ∈ l)
    (b : β) (hb : b ∈ f x) : b ∈ (l.map f).join :=
  List.mem_join.2 ⟨f x, List.mem_map_of_mem f hx, hb⟩

/-- Claim C3: whenever post-copy verification reports a mismatch or errors —
in `copy_file` or for a file inside `copy_directory` — the destination file is
removed, the recorded `FileEntry` has `success = false` and
`hash_verified = false`, and the operation result has `success = false` with a
populated `error_message`. -/
theorem verification_failure_cleanup :
    (∀ (operation : FileOperation) (env : CopyFileEnv) (b : Nat),
      env.copyResult = .ok b →
      (env.verify = .ok false ∨ ∃ e, env.verify = .error e) →
      FsAction.removeFile operation.destination ∈ (copy_file operation env).2 ∧
      (copy_file operation env).1.file_list ≠ [] ∧
      (∀ fe ∈ (copy_file operation env).1.file_list,
        fe.success = false ∧ fe.hash_verified = false) ∧
      (copy_file operation env).1.success = false ∧
      ((copy_file operation env).1.error_message).isSome = true) ∧
    (∀ (operation : FileOperation) (env : CopyDirEnv) (rel : FsPath) (size b : Nat)
      (vf : Except String Bool) (u : Unit),
      env.createDest = .ok u →
      (vf = .ok false ∨ ∃ e, vf = .error e) →
      WalkEvent.fileEvt rel size (.ok b) vf ∈ env.walk →
      FsAction.removeFile (joinPath operation.destination rel)
          ∈ (copy_directory operation env).2 ∧
      (∃ fe ∈ (copy_directory operation env).1.file_list,
        fe.destination_path = joinPath operation.destination rel ∧
        fe.success = false ∧ fe.hash_verified = false) ∧
      (copy_directory operation env).1.success = false ∧
      ((copy_directory operation env).1.error_message).isSome = true) := by
  constructor
  · intro operation env b hc hv
    obtain ⟨fs, cr, vf⟩ := env
    simp only at hc
    subst hc
    rcases hv with hv | ⟨e, hv⟩ <;> simp only at hv <;> subst hv <;>
      refine ⟨by simp [copy_file], by simp [copy_file], ?_, by simp [copy_file],
        by simp [copy_file]⟩ <;>
      (intro fe hfe; simp [copy_file] at hfe; simp [hfe])
  · intro operation env rel size b vf u hcd hv hev
    obtain ⟨cd, walk⟩ := env
    simp only at hcd hev
    subst hcd
    obtain ⟨h1, _, h3, h4, h5⟩ := copy_directory_ok_fields operation u walk
    have heo : eventOk (WalkEvent.fileEvt rel size (.ok b) vf) = false := by
      rcases hv with hv | ⟨e, hv⟩ <;> subst hv <;> rfl
    have hact : FsAction.removeFile (joinPath operation.destination rel)
        ∈ evActions operation.destination (WalkEvent.fileEvt rel size (.ok b) vf) := by
      rcases hv with hv | ⟨e, hv⟩ <;> subst hv <;> simp [evActions]
    have hmsg : ∃ m, m ∈ evMsgs operation.origin operation.destination
        (WalkEvent.fileEvt rel size (.ok b) vf) := by
      rcases hv with hv | ⟨e, hv⟩ <;> subst hv <;> exact ⟨_, List.mem_singleton.2 rfl⟩
    refine ⟨?_, ?_, ?_, ?_⟩
    · rw [h4]
      exact List.mem_cons_of_mem _ (mem_join_map _ walk _ hev _ hact)
    · rw [h3]
      rcases hv with hv | ⟨e, hv⟩ <;> subst hv
      · exact ⟨_, mem_join_map _ walk _ hev _ (List.mem_singleton.2 rfl),
          rfl, rfl, rfl⟩
      · exact ⟨_, mem_join_map _ walk _ hev _ (List.mem_singleton.2 rfl),
          rfl, rfl, rfl⟩
    · rw [h1]
      cases hall : walk.all eventOk with
      | false => rfl
      | true =>
        have := List.all_eq_true.1 hall _ hev
        rw [heo] at this
        exact absurd this (by simp)
    · rw [h5]
      obtain ⟨m, hm⟩ := hmsg
      have hne : (walk.map (evMsgs operation.origin operation.destination)).join ≠ [] :=
        List.ne_nil_of_mem (mem_join_map _ walk _ hev _ hm)
      simp [List.isEmpty_iff, hne]

/-- Claim C10: every `FileEntry` any of the four transfer primitives ever
places in a result's `file_list` satisfies `success = hash_verified`. -/
theorem file_entries_success_iff_verified :
    (∀ (operation : FileOperation) (env : CopyFileEnv),
      ∀ fe ∈ (copy_file operation env).1.file_list, fe.success = fe.hash_verified) ∧
    (∀ (operation : FileOperation) (env : CopyDirEnv),
      ∀ fe ∈ (copy_directory operation env).1.file_list, fe.success = fe.hash_verified) ∧
    (∀ (operation : FileOperation) (env : MoveFileEnv),
      ∀ fe ∈ (move_file operation env).1.file_list, fe.success = fe.hash_verified) ∧
    (∀ (operation : FileOperation) (env : MoveDirEnv),
      ∀ fe ∈ (move_directory operation env).1.file_list, fe.success = fe.hash_verified) := by
  refine ⟨?_, ?_, ?_, ?_⟩
  · intro operation env fe hfe
    obtain ⟨fs, cr, vf⟩ := env
    rcases cr with e | b
    · simp [copy_file] at hfe
      simp [hfe]
    · rcases vf with e2 | bv
      · simp [copy_file] at hfe
        simp [hfe]
      · cases bv <;> (simp [copy_file] at hfe; simp [hfe])
  · intro operation env fe hfe
    obtain ⟨cd, walk⟩ := env
    rcases cd with e | u
    · simp [copy_directory] at hfe
    · rw [(copy_directory_ok_fields operation u walk).2.2.1] at hfe
      obtain ⟨l, hl, hfe⟩ := List.mem_join.1 hfe
      obtain ⟨ev, _, rfl⟩ := List.mem_map.1 hl
      rcases ev with msg | p | ⟨rel, create⟩ | ⟨rel, size, cr, vf⟩
      · simp [evEntries] at hfe
      · simp [evEntries] at hfe
      · rcases create with e | u2 <;> simp [evEntries] at hfe
      · rcases cr with e | b
        · simp [evEntries] at hfe
          simp [hfe]
        · rcases vf with e2 | bv
          · simp [evEntries] at hfe
            simp [hfe]
          · cases bv <;> (simp [evEntries] at hfe; simp [hfe])
  · intro operation env fe hfe
    obtain ⟨fs, de, rm, rn, dea⟩ := env
    cases de <;> rcases rm with e | u <;> rcases rn with e2 | u2 <;> cases dea <;>
      simp [move_file, move_file_rename] at hfe <;> simp [hfe]
  · intro operation env fe hfe
    obtain ⟨de, co, cdst, rm, rn, dea, aw⟩ := env
    cases de <;> rcases rm with e | u <;> rcases rn with e2 | u2 <;> cases dea <;>
      by_cases hc : (co == cdst) = true <;>
      simp [move_directory, move_directory_rename, hc] at hfe <;>
      (obtain ⟨a, a1, b2, hmem, rfl⟩ := hfe; rfl)

/-- Witness for C10 at a concrete successful single-file copy. -/
theorem file_entries_success_iff_verified_witness :
    (FileEntry.mk "o" "d" 3 true true none) ∈
      (copy_file ⟨"n", "o", "d", .Copy, ⟨false, none, none⟩⟩
        ⟨3, .ok 3, .ok true⟩).1.file_list ∧
    (FileEntry.mk "o" "d" 3 true true none).success =
      (FileEntry.mk "o" "d" 3 true true none).hash_verified := by
  have hm : (FileEntry.mk "o" "d" 3 true true none) ∈
      (copy_file ⟨"n", "o", "d", .Copy, ⟨false, none, none⟩⟩
        ⟨3, .ok 3, .ok true⟩).1.file_list := by
    simp [copy_file]
  exact ⟨hm, file_entries_success_iff_verified.1 _ _ _ hm⟩

/-- Witness for C3 at a concrete hash-mismatch copy. -/
theorem verification_failure_cleanup_witness :
    ((CopyFileEnv.mk 3 (.ok 3) (.ok false)).copyResult = .ok 3) ∧
    ((CopyFileEnv.mk 3 (.ok 3) (.ok false)).verify = .ok false ∨
      ∃ e, (CopyFileEnv.mk 3 (.ok 3) (.ok false)).verify = .error e) ∧
    FsAction.removeFile "d" ∈
      (copy_file ⟨"n", "o", "d", .Copy, ⟨false, none, none⟩⟩ ⟨3, .ok 3, .ok false⟩).2 ∧
    (copy_file ⟨"n", "o", "d", .Copy, ⟨false, none, none⟩⟩ ⟨3, .ok 3, .ok false⟩).1.success
      = false := by
  have h := (verification_failure_cleanup.1
    ⟨"n", "o", "d", .Copy, ⟨false, none, none⟩⟩ ⟨3, .ok 3, .ok false⟩ 3 rfl (Or.inl rfl))
  exact ⟨rfl, Or.inl rfl, h.1, h.2.2.2.1⟩

/-- Claim C4: when the origin does not exist, or exists but is neither a
regular file nor a directory, `execute_single_operation` returns a failed
result with a populated `error_message` and performs no filesystem mutation at
all — in particular no destination or parent directory is touched. -/
theorem source_missing_no_side_effects (operation : FileOperation)
    (global_rate_limit : RateLimit) (env : SingleOpEnv)
    (h : env.originExists = false ∨ (env.originIsDir = false ∧ env.originIsFile = false)) :
    (execute_single_operation operation global_rate_limit env).1.success = false ∧
    ((execute_single_operation operation global_rate_limit env).1.error_message).isSome
      = true ∧
    (execute_single_operation operation global_rate_limit env).2 = [] := by
  rcases h with h | ⟨h1, h2⟩
  · simp [execute_single_operation, h]
  · cases he : env.originExists <;> simp [execute_single_operation, he, h1, h2]

/-- Environment with a missing origin, used only by the witness of C4. -/
def envC4 : SingleOpEnv :=
  ⟨false, false, false, none, true, .ok (), ⟨0, .ok 0, .ok true⟩, ⟨.ok (), []⟩,
    ⟨0, false, .ok (), .ok (), true⟩, ⟨false, none, none, .ok (), .ok (), true, []⟩⟩

theorem source_missing_no_side_effects_witness :
    (envC4.originExists = false ∨
      (envC4.originIsDir = false ∧ envC4.originIsFile = false)) ∧
    (execute_single_operation ⟨"n", "o", "d", .Copy, ⟨false, none, none⟩⟩
      ⟨false, none, none⟩ envC4).1.success = false ∧
    (execute_single_operation ⟨"n", "o", "d", .Copy, ⟨false, none, none⟩⟩
      ⟨false, none, none⟩ envC4).2 = [] := by
  have h := source_missing_no_side_effects ⟨"n", "o", "d", .Copy, ⟨false, none, none⟩⟩
    ⟨false, none, none⟩ envC4 (Or.inl rfl)
  exact ⟨Or.inl rfl, h.1, h.2.2⟩

/-- Claim C5: a directory move whose destination exists and whose source and
destination have the same `canonicalize().ok()` result fails immediately —
`success = false` with the same-directory error message — and performs no
filesystem mutation. -/
theorem move_directory_same_path_no_mutation (operation : FileOperation)
    (env : MoveDirEnv) (hdest : env.destExists = true)
    (hcanon : env.canonOrigin = env.canonDest) :
    (move_directory operation env).1.success = false ∧
    (move_directory operation env).1.error_message =
      some "Source and destination are the same directory" ∧
    (move_directory operation env).2 = [] := by
  obtain ⟨de, co, cdst, rm, rn, dea, aw⟩ := env
  simp only at hdest hcanon
  subst hdest
  subst hcanon
  simp [move_directory]

theorem move_directory_same_path_no_mutation_witness :
    ((MoveDirEnv.mk true (some "p") (some "p") (.ok ()) (.ok ()) true []).destExists
      = true) ∧
    ((MoveDirEnv.mk true (some "p") (some "p") (.ok ()) (.ok ()) true []).canonOrigin
      = (MoveDirEnv.mk true (some "p") (some "p") (.ok ()) (.ok ()) true []).canonDest) ∧
    (move_directory ⟨"n", "o", "d", .Move, ⟨false, none, none⟩⟩
      ⟨true, some "p", some "p", .ok (), .ok (), true, []⟩).1.success = false ∧
    (move_directory ⟨"n", "o", "d", .Move, ⟨false, none, none⟩⟩
      ⟨true, some "p", some "p", .ok (), .ok (), true, []⟩).2 = [] := by
  have h := move_directory_same_path_no_mutation
    ⟨"n", "o", "d", .Move, ⟨false, none, none⟩⟩
    ⟨true, some "p", some "p", .ok (), .ok (), true, []⟩ rfl rfl
  exact ⟨rfl, rfl, h.1, h.2.2⟩

/-- Claim C6: when the destination of a single-file move already exists, the
trace begins with its removal, and a failed removal aborts the operation —
failed result, populated `error_message`, no rename and no other action; a
successful rename whose destination then exists yields `hash_verified = true`;
and no digest is ever computed by `move_file`. -/
theorem move_file_dest_exists_props :
    (∀ (operation : FileOperation) (env : MoveFileEnv) (u : Unit),
      env.destExists = true → env.removeDest = .ok u →
      ∃ rest, (move_file operation env).2
        = FsAction.removeFile operation.destination :: rest) ∧
    (∀ (operation : FileOperation) (env : MoveFileEnv) (e : String),
      env.destExists = true → env.removeDest = .error e →
      (move_file operation env).1.success = false ∧
      ((move_file operation env).1.error_message).isSome = true ∧
      (move_file operation env).2 = []) ∧
    (∀ (operation : FileOperation) (env : MoveFileEnv) (u : Unit),
      env.renameRes = .ok u → env.destExistsAfter = true →
      (move_file operation env).1.hash_verified = true) ∧
    (∀ (operation : FileOperation) (env : MoveFileEnv) (p : FsPath),
      FsAction.digest p ∉ (move_file operation env).2) := by
  refine ⟨?_, ?_, ?_, ?_⟩
  · intro operation env u hde hrm
    obtain ⟨fs, de, rm, rn, dea⟩ := env
    simp only at hde hrm
    subst hde
    subst hrm
    rcases rn with e2 | u2 <;> cases dea <;> exact ⟨_, rfl⟩
  · intro operation env e hde hrm
    obtain ⟨fs, de, rm, rn, dea⟩ := env
    simp only at hde hrm
    subst hde
    subst hrm
    simp [move_file]
  · intro operation env u hrn hdea
    obtain ⟨fs, de, rm, rn, dea⟩ := env
    simp only at hrn hdea
    subst hrn
    subst hdea
    cases de <;> rcases rm with e | u2 <;> simp [move_file, move_file_rename]
  · intro operation env p
    obtain ⟨fs, de, rm, rn, dea⟩ := env
    cases de <;> rcases rm with e | u2 <;> rcases rn with e2 | u3 <;> cases dea <;>
      simp [move_file, move_file_rename]

theorem move_file_dest_exists_props_witness :
    ((MoveFileEnv.mk 3 true (.ok ()) (.ok ()) true).destExists = true) ∧
    ((MoveFileEnv.mk 3 true (.ok ()) (.ok ()) true).removeDest = .ok ()) ∧
    (∃ rest, (move_file ⟨"n", "o", "d", .Move, ⟨false, none, none⟩⟩
      ⟨3, true, .ok (), .ok (), true⟩).2
        = FsAction.removeFile "d" :: rest) ∧
    ((MoveFileEnv.mk 3 true (.error "busy") (.ok ()) true).removeDest = .error "busy") ∧
    (move_file ⟨"n", "o", "d", .Move, ⟨false, none, none⟩⟩
      ⟨3, true, .error "busy", .ok (), true⟩).1.success = false ∧
    (move_file ⟨"n", "o", "d", .Move, ⟨false, none, none⟩⟩
      ⟨3, true, .error "busy", .ok (), true⟩).2 = [] := by
  have h1 := move_file_dest_exists_props.1 ⟨"n", "o", "d", .Move, ⟨false, none, none⟩⟩
    ⟨3, true, .ok (), .ok (), true⟩ () rfl rfl
  have h2 := move_file_dest_exists_props.2.1 ⟨"n", "o", "d", .Move, ⟨false, none, none⟩⟩
    ⟨3, true, .error "busy", .ok (), true⟩ "busy" rfl rfl
  exact ⟨rfl, rfl, h1, rfl, h2.1, h2.2.2⟩

/-- Claim C9: for any completion order that is a permutation of the operation
indices, `execute_operations` returns exactly one result per input operation —
the collection has exactly `K` entries and is a permutation of the per-index
results, so none is lost and none duplicated. -/
theorem execute_operations_one_result_each (operations : List FileOperation)
    (global_rate_limit : RateLimit) (envs : Nat → SingleOpEnv) (order : List Nat)
    (h : order.Perm (List.range operations.length)) :
    (execute_operations operations global_rate_limit envs order).length
      = operations.length ∧
    (execute_operations operations global_rate_limit envs order).Perm
      ((List.range operations.length).map (fun i =>
        (execute_single_operation (operations.getD i default) global_rate_limit
          (envs i)).1)) := by
  refine ⟨?_, h.map _⟩
  simp [execute_operations, h.length_eq]

/-- Environment family used only by the witness of C9. -/
def envsC9 : Nat → SingleOpEnv := fun _ =>
  ⟨false, false, false, none, true, .ok (), ⟨0, .ok 0, .ok true⟩, ⟨.ok (), []⟩,
    ⟨0, false, .ok (), .ok (), true⟩, ⟨false, none, none, .ok (), .ok (), true, []⟩⟩

theorem execute_operations_one_result_each_witness :
    ([0].Perm (List.range
      ([(⟨"n", "o", "d", .Copy, ⟨false, none, none⟩⟩ : FileOperation)].length))) ∧
    (execute_operations [⟨"n", "o", "d", .Copy, ⟨false, none, none⟩⟩]
      ⟨false, none, none⟩ envsC9 [0]).length
      = [(⟨"n", "o", "d", .Copy, ⟨false, none, none⟩⟩ : FileOperation)].length := by
  have hp : ([0].Perm (List.range
      ([(⟨"n", "o", "d", .Copy, ⟨false, none, none⟩⟩ : FileOperation)].length))) := by
    rw [show List.range
      ([(⟨"n", "o", "d", .Copy, ⟨false, none, none⟩⟩ : FileOperation)].length)
      = [0] from rfl]
  exact ⟨hp, (execute_operations_one_result_each _ ⟨false, none, none⟩ envsC9 [0] hp).1⟩

end RustyBucket
